import Mathlib

/-!
# Verification of the Frame Capture & Annotation Normalization Pipeline

Shallow embedding of `Primera_Extensio_python/scenario.py` (class
`SyntheticCaptureScenario`) and `global_variables.py`.

Modelling conventions:
* Python values appearing in annotator payloads are modelled by the mutual
  inductive `PyVal` (None, str, int, float, list, tuple, dict, numpy ndarray,
  numpy scalar).  Dictionary keys occurring in the payloads are strings or
  integers (`PyKey`).  Python `dict` lookup is modelled by first-match lookup
  in the entry list.
* Python floats are modelled by rationals (`ℚ`); `int()` applied to a float
  truncates toward zero (`pyTrunc`).
* numpy integer arrays are modelled by the inductive `NDA` (nested lists of
  integer leaves); real numpy arrays are rectangular, which theorems assume
  via explicit `Rect`-style hypotheses where needed.
* `json.loads` of a string-encoded `idToLabels` table (scenario.py lines
  216-220 and 311-315) is not modelled: a string-valued table is treated as
  the parse-failure branch, and the semantic table enters the pipeline
  post-decoded.  No claim under verification involves string-encoded tables.
-/

/-- Python `int()` applied to a float: truncation toward zero (the
numerator of the reduced fraction, t-divided by the denominator). -/
def pyTrunc (q : ℚ) : ℤ := q.num.tdiv q.den

/-- Python `f"{n:04d}"` for a nonnegative integer: zero-pad to width 4. -/
def pad4 (n : Nat) : String :=
  let s := toString n
  String.mk (List.replicate (4 - s.length) '0') ++ s

/-- Keys of Python dictionaries occurring in annotator payloads. -/
abbrev PyKey := String ⊕ ℤ

mutual
/-- Python values occurring in the annotator payloads of `scenario.py`:
`None`, `str`, `int`, `float`, `list`, `tuple`, `dict`, `numpy.ndarray`
(with `npArr`, carrying its rows) and numpy scalars (`np.generic`). -/
inductive PyVal where
  | pyNone
  | pyStr (s : String)
  | pyInt (n : ℤ)
  | pyFloat (q : ℚ)
  | pyList (xs : PySeq)
  | pyTuple (xs : PySeq)
  | pyDict (es : PyEntries)
  | npArr (xs : PySeq)
  | npScalar (q : ℚ)

/-- A sequence of Python values (elements of a list/tuple/array). -/
inductive PySeq where
  | nil
  | cons (v : PyVal) (tl : PySeq)

/-- Entries of a Python dictionary, in insertion order. -/
inductive PyEntries where
  | nil
  | cons (k : PyKey) (v : PyVal) (tl : PyEntries)
end

namespace PyEntries

/-- Python `d.get(k)`: the value stored under `k`, if any. -/
def get? : PyEntries → PyKey → Option PyVal
  | .nil, _ => none
  | .cons k v tl, k' => if k = k' then some v else tl.get? k'

end PyEntries

/-- `str(k)` for a dictionary key. -/
def keyStr : PyKey → String
  | .inl s => s
  | .inr n => toString n

/-- A decimal digit. -/
def digit? (c : Char) : Option ℕ :=
  if c = '0' then some 0 else if c = '1' then some 1 else if c = '2' then some 2
  else if c = '3' then some 3 else if c = '4' then some 4 else if c = '5' then some 5
  else if c = '6' then some 6 else if c = '7' then some 7 else if c = '8' then some 8
  else if c = '9' then some 9 else none

/-- Parse a nonempty digit string. -/
def parseDigits : List Char → ℕ → Option ℕ
  | [], acc => some acc
  | c :: cs, acc =>
    match digit? c with
    | some d => parseDigits cs (acc * 10 + d)
    | none => none

/-- Python `int()` applied to a string: an optional minus sign followed by
decimal digits; anything else raises (`none`).  (Python additionally strips
whitespace and accepts `+` and digit-group underscores; such keys do not
occur in annotator tables and are not modelled.) -/
def pyIntOfString (s : String) : Option ℤ :=
  match s.data with
  | [] => none
  | '-' :: ds =>
    (match ds with
     | [] => none
     | _ => (parseDigits ds 0).map (fun n => -(n : ℤ)))
  | ds => (parseDigits ds 0).map (fun n => (n : ℤ))

/-- Python `int(k)` for a dictionary key: an integer key is itself, a string
key is parsed as a decimal integer (raising, i.e. `none`, on failure). -/
def keyToInt : PyKey → Option ℤ
  | .inr n => some n
  | .inl s => pyIntOfString s

mutual
/-- `scenario.py` `_to_jsonable` (lines 65-74 and 438-447): ndarrays become
nested lists (`tolist`), numpy scalars become their Python scalar (`item`),
dictionary keys become strings, tuples become lists, recursively. -/
def to_jsonable : PyVal → PyVal
  | .npArr xs => .pyList (to_jsonable_seq xs)
  | .npScalar q => .pyFloat q
  | .pyDict es => .pyDict (to_jsonable_entries es)
  | .pyList xs => .pyList (to_jsonable_seq xs)
  | .pyTuple xs => .pyList (to_jsonable_seq xs)
  | v => v

def to_jsonable_seq : PySeq → PySeq
  | .nil => .nil
  | .cons v tl => .cons (to_jsonable v) (to_jsonable_seq tl)

def to_jsonable_entries : PyEntries → PyEntries
  | .nil => .nil
  | .cons k v tl => .cons (.inl (keyStr k)) (to_jsonable v) (to_jsonable_entries tl)
end

mutual
/-- A value is JSON-serialisation-safe: no ndarray, no numpy scalar, no
tuple remains, and every dictionary key is a string. -/
def JsonSafe : PyVal → Bool
  | .pyNone | .pyStr _ | .pyInt _ | .pyFloat _ => true
  | .pyList xs => JsonSafeSeq xs
  | .pyTuple _ => false
  | .pyDict es => JsonSafeEntries es
  | .npArr _ => false
  | .npScalar _ => false

def JsonSafeSeq : PySeq → Bool
  | .nil => true
  | .cons v tl => JsonSafe v && JsonSafeSeq tl

def JsonSafeEntries : PyEntries → Bool
  | .nil => true
  | .cons k v tl =>
    (match k with | .inl _ => true | .inr _ => false) && JsonSafe v && JsonSafeEntries tl
end

/-! ## Python truthiness -/

/-- Python truthiness of the scalar values that can appear as an extracted
label (`if not label`, scenario.py line 251).  Containers are truthy iff
nonempty; numpy arrays of size larger than one raise on `bool()` and are
excluded from the theorems via `MaskSafe`-style hypotheses. -/
def truthyV : PyVal → Bool
  | .pyNone => false
  | .pyStr s => !(s == "")
  | .pyInt n => !(n == 0)
  | .pyFloat q => !(q == 0)
  | .pyList xs => (match xs with | .nil => false | _ => true)
  | .pyTuple xs => (match xs with | .nil => false | _ => true)
  | .pyDict es => (match es with | .nil => false | _ => true)
  | .npArr _ => true
  | .npScalar q => !(q == 0)

/-- Python truthiness of `lbl` where `lbl` is `None` or a string
(`if lbl:` inside `_resolve_label`). -/
def truthyS : Option String → Bool
  | none => false
  | some s => !(s == "")

/-! ## global_variables.py -/

/-- `global_variables.CLASS_TO_COLOR`. -/
def CLASS_TO_COLOR : List (String × (ℕ × ℕ × ℕ)) :=
  [("cone", (255, 0, 0)), ("sphere", (0, 255, 0)), ("cube", (0, 0, 255))]

/-- `label in CLASS_TO_COLOR` membership plus `CLASS_TO_COLOR[label]`. -/
def lookupColor (s : String) : Option (ℕ × ℕ × ℕ) :=
  (CLASS_TO_COLOR.find? (fun e => e.1 == s)).map Prod.snd

/-- `global_variables.RESOLUTION`. -/
def RESOLUTION : ℕ × ℕ := (1280, 720)

/-! ## Label Resolver (`_extract_class` / `_resolve_label`, lines 320-351) -/

/-- `scenario.py` `_extract_class` (lines 320-338).  `pyNone` is the
`label_info is None` case; a bare string is returned as-is (even empty); a
dict yields its `class` field when that is a nonempty string, else its
`labels.class` field when that is a nonempty string; anything else `None`. -/
def _extract_class : PyVal → Option String
  | .pyNone => none
  | .pyStr s => some s
  | .pyDict es =>
    (match es.get? (.inl "class") with
     | some (.pyStr c) =>
       if c ≠ "" then some c else _extract_class_labels es
     | _ => _extract_class_labels es)
  | _ => none
where
  /-- The `labels.get("class")` fallback (lines 332-336). -/
  _extract_class_labels (es : PyEntries) : Option String :=
    match es.get? (.inl "labels") with
    | some (.pyDict les) =>
      (match les.get? (.inl "class") with
       | some (.pyStr c2) => if c2 ≠ "" then some c2 else none
       | _ => none)
    | _ => none

/-- `tbl.get(str(semantic_id), tbl.get(int(semantic_id), None))`
(lines 341 and 347): string key first, integer key second, `None` default. -/
def tableLookup (es : PyEntries) (semantic_id : ℤ) : PyVal :=
  ((es.get? (.inl (toString semantic_id))).getD
    ((es.get? (.inr semantic_id)).getD .pyNone))

/-- `scenario.py` `_resolve_label` (lines 340-351): try the bbox-scoped
table, then (when the semantic-map table is a dict) the semantic-scoped
table; unresolved ids give `none`. -/
def _resolve_label (id_to_labels_bbox : PyEntries) (id_to_labels_sem : PyVal)
    (semantic_id : ℤ) : Option String :=
  let lbl := _extract_class (tableLookup id_to_labels_bbox semantic_id)
  if truthyS lbl then lbl
  else
    match id_to_labels_sem with
    | .pyDict es2 =>
      let lbl2 := _extract_class (tableLookup es2 semantic_id)
      if truthyS lbl2 then lbl2 else none
    | _ => none

/-! ### Spec-side resolver (claim C2's wording)

These definitions follow the words of the specification's Label Resolver
contract (§4.3), to be compared with the source-derived `_resolve_label`. -/

/-- Spec wording: "looks the id up in the primary table under its string key
form and then its integer key form". -/
def specLookup (tbl : PyEntries) (sid : ℤ) : Option PyVal :=
  match tbl.get? (.inl (toString sid)) with
  | some v => some v
  | none => tbl.get? (.inr sid)

/-- Spec wording: "extracts the class name from a `class` field, from a
nested `labels.class` field, or from a bare string value" (an extracted
class name is a nonempty string; otherwise extraction fails). -/
def specExtract (v : Option PyVal) : Option String :=
  match specClassField v with
  | some c => some c
  | none =>
    match specLabelsClassField v with
    | some c => some c
    | none => specBareString v
where
  specClassField : Option PyVal → Option String
    | some (.pyDict es) =>
      (match es.get? (.inl "class") with
       | some (.pyStr c) => if c = "" then none else some c
       | _ => none)
    | _ => none
  specLabelsClassField : Option PyVal → Option String
    | some (.pyDict es) =>
      (match es.get? (.inl "labels") with
       | some (.pyDict les) =>
         (match les.get? (.inl "class") with
          | some (.pyStr c) => if c = "" then none else some c
          | _ => none)
       | _ => none)
    | _ => none
  specBareString : Option PyVal → Option String
    | some (.pyStr s) => if s = "" then none else some s
    | _ => none

/-- Spec wording of the Label Resolver: extraction on the primary table,
then on the secondary table, then absence. -/
def specResolve (primary secondary : PyEntries) (sid : ℤ) : Option String :=
  match specExtract (specLookup primary sid) with
  | some c => some c
  | none => specExtract (specLookup secondary sid)

/-! ## Color-mask construction (scenario.py lines 237-255)

The loop `mask[sem_ids == sid] = color` acts pointwise on the id grid: a
pixel's final color depends only on its own semantic id, so the mask is
modelled per pixel by a fold over the table entries in order. -/

/-- The inlined label extraction of the mask loop (lines 245-249): only a
dict `label_info` is consulted; `label = label_info.get("class")`, falling
back to `labels.get("class")` only when `class` is absent or stored `None`.
The result is the raw Python value bound to `label` (`none` = Python
`None`). -/
def maskLabelRaw : PyVal → Option PyVal
  | .pyDict es =>
    (match es.get? (.inl "class") with
     | some .pyNone | none => maskLabelFallback es
     | some v => some v)
  | _ => none
where
  maskLabelFallback (es : PyEntries) : Option PyVal :=
    match es.get? (.inl "labels") with
    | some (.pyDict les) =>
      (match les.get? (.inl "class") with
       | some .pyNone | none => none
       | some v => some v)
    | _ => none

/-- One iteration of the mask loop for one pixel: `continue` when the key
does not parse as an int, when the label is falsy or not a key of
`CLASS_TO_COLOR`, or when the entry's id differs from the pixel's id;
otherwise overwrite the pixel with the class color. -/
def maskStep (pid : ℤ) (c : ℕ × ℕ × ℕ) (k : PyKey) (v : PyVal) : ℕ × ℕ × ℕ :=
  match keyToInt k with
  | none => c
  | some sid =>
    match maskLabelRaw v with
    | none => c
    | some lbl =>
      if truthyV lbl then
        match lbl with
        | .pyStr s =>
          (match lookupColor s with
           | some col => if sid = pid then col else c
           | none => c)
        | _ => c
      else c

/-- The mask loop (lines 238-253) restricted to one pixel of semantic id
`pid`: fold `maskStep` over the table entries in order, starting from black. -/
def maskFold : PyEntries → ℤ → (ℕ × ℕ × ℕ) → (ℕ × ℕ × ℕ)
  | .nil, _, c => c
  | .cons k v tl, pid, c => maskFold tl pid (maskStep pid c k v)

/-- Final color of a pixel of semantic id `pid` in the mask built from the
semantic `idToLabels` table. -/
def maskPixel (es : PyEntries) (pid : ℤ) : ℕ × ℕ × ℕ := maskFold es pid (0, 0, 0)

/-- The full mask over a 2D id grid: `np.zeros` overwritten per table entry;
when `id_to_labels_sem` is not a dict the mask stays black (line 254-255). -/
def maskOf (id_to_labels_sem : PyVal) (grid : List (List ℤ)) :
    List (List (ℕ × ℕ × ℕ)) :=
  match id_to_labels_sem with
  | .pyDict es => grid.map (fun r => r.map (maskPixel es))
  | _ => grid.map (fun r => r.map (fun _ => (0, 0, 0)))

/-- Entries whose extracted raw label is a hashable scalar (Python `None`,
`str`, `int`, `float`).  For other truthy extracted labels the real loop
would raise (`bool()` of a large array) or crash on unhashable membership
(`dict`/`list` in `CLASS_TO_COLOR`); such tables are outside the contract. -/
def MaskSafeEntries : PyEntries → Bool
  | .nil => true
  | .cons _ v tl =>
    (match maskLabelRaw v with
     | none | some .pyNone | some (.pyStr _) | some (.pyInt _) | some (.pyFloat _) => true
     | some _ => false) && MaskSafeEntries tl

/-- Amended description of one mask-loop entry: it paints pixels of id `pid`
iff its key int-parses to `pid` and its dict-extracted label is a string
class of `CLASS_TO_COLOR`; the color painted. -/
def maskEntryColor (pid : ℤ) (k : PyKey) (v : PyVal) : Option (ℕ × ℕ × ℕ) :=
  match keyToInt k with
  | some sid =>
    if sid = pid then
      match maskLabelRaw v with
      | some (.pyStr s) => lookupColor s
      | _ => none
    else none
  | none => none

/-- Spec-side (amended) mask pixel: the color of the last table entry that
paints `pid`, black when no entry does. -/
def maskPixelSpec (es : PyEntries) (pid : ℤ) : ℕ × ℕ × ℕ :=
  maskPixelSpecGo es pid (0, 0, 0)
where
  maskPixelSpecGo : PyEntries → ℤ → (ℕ × ℕ × ℕ) → ℕ × ℕ × ℕ
    | .nil, _, acc => acc
    | .cons k v tl, pid, acc =>
      maskPixelSpecGo tl pid ((maskEntryColor pid k v).getD acc)

/-! ## Bounding-box coordinate normalization (lines 353-359, 391-394) -/

/-- `scenario.py` `_to_pixel_coords` (lines 353-359): when all four
coordinates lie in `[0, 1.5]` they are treated as fractional and scaled by
the image width (x) / height (y); otherwise they pass through unchanged. -/
def _to_pixel_coords (xmin ymin xmax ymax : ℚ) (W H : ℤ) : ℚ × ℚ × ℚ × ℚ :=
  if 0 ≤ xmax ∧ xmax ≤ mkRat 3 2 ∧ 0 ≤ ymax ∧ ymax ≤ mkRat 3 2 ∧
     0 ≤ xmin ∧ xmin ≤ mkRat 3 2 ∧ 0 ≤ ymin ∧ ymin ≤ mkRat 3 2 then
    (xmin * W, ymin * H, xmax * W, ymax * H)
  else
    (xmin, ymin, xmax, ymax)

/-- Python `sorted((a, b))` for two integers. -/
def sort2 (a b : ℤ) : ℤ × ℤ := if a ≤ b then (a, b) else (b, a)

/-- Lines 391-394: `_to_pixel_coords`, then
`xmin_i, xmax_i = sorted((max(0, int(xmin)), min(W - 1, int(xmax))))` and
likewise for y.  Result `(xmin_i, ymin_i, xmax_i, ymax_i)`. -/
def canonicalBox (xmin ymin xmax ymax : ℚ) (W H : ℤ) : ℤ × ℤ × ℤ × ℤ :=
  let p := _to_pixel_coords xmin ymin xmax ymax W H
  let xs := sort2 (max 0 (pyTrunc p.1)) (min (W - 1) (pyTrunc p.2.2.1))
  let ys := sort2 (max 0 (pyTrunc p.2.1)) (min (H - 1) (pyTrunc p.2.2.2))
  (xs.1, ys.1, xs.2, ys.2)

/-- Claim C1's stated property of a canonical box `(x0, y0, x1, y1)`:
ordered, and all four coordinates within `[0, W-1] × [0, H-1]`. -/
def boxWithinBounds (b : ℤ × ℤ × ℤ × ℤ) (W H : ℤ) : Prop :=
  b.1 ≤ b.2.2.1 ∧ b.2.1 ≤ b.2.2.2 ∧
  0 ≤ b.1 ∧ b.1 ≤ W - 1 ∧ 0 ≤ b.2.2.1 ∧ b.2.2.1 ≤ W - 1 ∧
  0 ≤ b.2.1 ∧ b.2.1 ≤ H - 1 ∧ 0 ≤ b.2.2.2 ∧ b.2.2.2 ≤ H - 1

instance (b : ℤ × ℤ × ℤ × ℤ) (W H : ℤ) : Decidable (boxWithinBounds b W H) := by
  unfold boxWithinBounds; infer_instance

/-! ## Overlay box drawing (lines 396-423) -/

/-- A drawing primitive issued for one bounding box: the outline rectangle,
or one `draw.text` call at offset `(dx, dy)` from the label anchor with the
given fill color. -/
inductive DrawOp where
  | rect
  | text (dx dy : ℤ) (fill : ℕ × ℕ × ℕ)
deriving DecidableEq

/-- The 8 halo offsets of line 420. -/
def haloOffsets : List (ℤ × ℤ) :=
  [(-2, 0), (2, 0), (0, -2), (0, 2), (-2, -2), (2, 2), (-2, 2), (2, -2)]

/-- Drawing decisions per box (lines 399-423): falsy label → outline only;
label `"ground"` with ground-label drawing disabled → nothing; otherwise
outline, 8 black halo text draws, and one white text draw. -/
def boxDrawOps (label : Option String) (draw_ground_label : Bool) : List DrawOp :=
  if !truthyS label then [.rect]
  else if label == some "ground" && !draw_ground_label then []
  else
    [DrawOp.rect] ++ haloOffsets.map (fun o => DrawOp.text o.1 o.2 (0, 0, 0))
      ++ [DrawOp.text 0 0 (255, 255, 255)]

/-! ## numpy arrays of integers (`NDA`) and buffer normalization -/

/-- A numpy array of integer dtype, as produced by `np.asarray` on the
annotator outputs: nested lists with integer leaves.  Real numpy arrays are
rectangular; theorems assume rectangularity explicitly where needed. -/
inductive NDA where
  | leaf (v : ℤ)
  | node (xs : List NDA)

namespace NDA

/-- `a.ndim`, reading the nesting depth along the first elements. -/
def ndim : NDA → ℕ
  | leaf _ => 0
  | node [] => 1
  | node (x :: _) => x.ndim + 1

/-- `a.shape`, reading lengths along the first elements. -/
def shape : NDA → List ℕ
  | leaf _ => []
  | node [] => [0]
  | node (x :: xs) => (xs.length + 1) :: x.shape

/-- An `NDA` is a rectangular array of exactly the given shape. -/
def Rect : NDA → List ℕ → Prop
  | leaf _, dims => dims = []
  | node xs, dims =>
    match dims with
    | [] => False
    | d :: dims' => xs.length = d ∧ ∀ x ∈ xs, Rect x dims'

end NDA

/-- A 3D integer array as nested lists (the view used after the
`ndim == 3` check passes). -/
abbrev T3 := List (List (List ℤ))

/-- Extraction of the 3D nested-list view of a 3D `NDA` (faithful on
rectangular 3D arrays; defaults never fire under the shape hypotheses). -/
def toT3 (a : NDA) : T3 :=
  match a with
  | .node xs =>
    xs.map fun row =>
      match row with
      | .node ys =>
        ys.map fun cell =>
          match cell with
          | .node zs => zs.map (fun z => match z with | .leaf v => v | _ => 0)
          | _ => []
      | _ => []
  | _ => []

/-- The 2D nested-list view of a 2D `NDA`. -/
def toT2 (a : NDA) : List (List ℤ) :=
  match a with
  | .node xs =>
    xs.map fun row =>
      match row with
      | .node ys => ys.map (fun y => match y with | .leaf v => v | _ => 0)
      | _ => []
  | _ => []

/-- `np.transpose(x, (1, 0, ...))` on the outermost two axes of a
rectangular nested list (row count read off the first row). -/
def transposeL (x : List (List α)) (d : α) : List (List α) :=
  match x with
  | [] => []
  | r :: _ => (List.range r.length).map fun j => x.map fun row => row.getD j d

/-- Lines 197-202: transpose the first two axes when the buffer arrives as
`(res_w, res_h, ·)`, then `[:, :, :3]` and `astype(np.uint8)` (keep the
first 3 channels, wrap values mod 256). -/
def normalizeRgb3 (x : T3) (res_w res_h : ℕ) : T3 :=
  let x' := if x.length = res_w ∧ (x.headD []).length = res_h then transposeL x [] else x
  x'.map fun row => row.map fun px => (px.take 3).map fun v => v % 256

/-- `np.zeros((h, w))` as an integer grid. -/
def zeros2 (h w : ℕ) : List (List ℤ) :=
  List.replicate h (List.replicate w 0)

/-- Semantic-grid normalization, lines 222-235: missing data degrades to
`np.zeros((H, W))`; a 3D grid with a singleton trailing channel is reduced
by `sem_ids[:, :, 0]`; any other non-2D shape degrades to `np.zeros((H, W))`;
finally the `(res_w, res_h)` transposition heuristic (line 234-235).
`H`/`W` are the normalized image dimensions. -/
def normalizeSemGrid (data : Option NDA) (H W res_w res_h : ℕ) : List (List ℤ) :=
  let g : List (List ℤ) :=
    match data with
    | none => zeros2 H W
    | some a =>
      if a.ndim = 2 then toT2 a
      else if a.ndim = 3 ∧ a.shape.getD 2 0 = 1 then toT2 (squeezeLast a)
      else zeros2 H W
  if g.length = res_w ∧ (g.headD []).length = res_h then transposeL g 0 else g
where
  /-- `sem_ids[:, :, 0]` on a 3D array. -/
  squeezeLast : NDA → NDA
    | .node xs =>
      .node (xs.map fun row =>
        match row with
        | .node ys => .node (ys.map fun cell =>
            match cell with
            | .node (z :: _) => z
            | _ => .leaf 0)
        | r => r)
    | a => a

/-! ## Scenario state machine (`SyntheticCaptureScenario`) -/

/-- The mutable state of a `SyntheticCaptureScenario` instance.  Camera,
render product and prim handles are opaque; only their presence matters. -/
structure ScenarioState where
  _created : Bool
  _camera : Option Unit
  _render_product : Option Unit
  _prims : List String
  _frame_idx : ℕ
  _draw_ground_label : Bool

/-- The result of one annotator `get_data()` call: a value, or an exception. -/
inductive Fetch (α : Type) where
  | ok (v : α)
  | raises

/-- The raw `semantic_segmentation` payload, lines 207-220.  A dict payload
carries an optional `data` grid and the `idToLabels` value (`pyNone` when
the key is absent or its JSON decoding failed); a non-dict payload is used
as the grid itself and leaves the table `None`.  Payloads whose `info`
field is present but not a dict raise in the source and are not modelled. -/
inductive SemRaw where
  | nonDict (data : Option NDA)
  | dict (data : Option NDA) (idToLabels : PyVal)

/-- The `(sem_ids, id_to_labels_sem)` pair read off the payload. -/
def SemRaw.view : SemRaw → Option NDA × PyVal
  | .nonDict d => (d, .pyNone)
  | .dict d t => (d, t)

/-- One extracted bounding-box row, after the per-row field extraction of
lines 378-389 (`semanticId`, `x_min`, `y_min`, `x_max`, `y_max` with their
alias spellings and `float` conversion). -/
structure BoxRow where
  bid : ℤ
  xmin : ℚ
  ymin : ℚ
  xmax : ℚ
  ymax : ℚ

/-- The external inputs of one `generate_one_frame_async` call.  The
container dispatch of lines 277-302 (structured array / flat row / record
list) is not itself under verification; rows enter pre-extracted. -/
structure CaptureEnv where
  rgbFetch : Fetch NDA
  semFetch : Fetch SemRaw
  bboxFetch : Fetch PyVal
  rows : List BoxRow

/-- The bbox-scoped `idToLabels` table, lines 266-271 and 305-318:
`info.idToLabels` when present and non-`None`, else the top-level
`idToLabels` key; anything that is not a dict degrades to `{}` (the
JSON-string decode of lines 311-315 is not modelled and degrades likewise). -/
def bboxTableOf (bbox_raw : PyVal) : PyEntries :=
  let infoEntries : PyEntries :=
    match bbox_raw with
    | .pyDict es =>
      (match es.get? (.inl "info") with
       | some (.pyDict ies) => ies
       | _ => .nil)
    | _ => .nil
  let t : Option PyVal :=
    match infoEntries.get? (.inl "idToLabels") with
    | some .pyNone | none =>
      (match bbox_raw with
       | .pyDict es => es.get? (.inl "idToLabels")
       | _ => none)
    | some v => some v
  match t with
  | some (.pyDict es) => es
  | _ => .nil

/-- The JSON sidecar document of lines 449-457: the `out` dictionary with
keys `frame`, `resolution`, `bbox`, `idToLabels_semantic`, passed through
`_to_jsonable` before `json.dump`. -/
def sidecarJson (idx : ℕ) (W H : ℤ) (bbox_raw id_to_labels_sem : PyVal) : PyVal :=
  to_jsonable (.pyDict
    (.cons (.inl "frame") (.pyInt idx)
      (.cons (.inl "resolution")
        (.pyList (.cons (.pyInt W) (.cons (.pyInt H) .nil)))
        (.cons (.inl "bbox") bbox_raw
          (.cons (.inl "idToLabels_semantic") id_to_labels_sem .nil)))))

/-- The observable outcome of one `generate_one_frame_async` call: the
boolean result, the artifact filenames written, the frame index consumed
(`emitted`), and the normalized intermediate values. -/
structure FrameOutput where
  ok : Bool
  writes : List String
  emitted : Option ℕ
  semGrid : Option (List (List ℤ))
  mask : Option (List (List (ℕ × ℕ × ℕ)))
  rowDraws : List (Option String × List DrawOp)
  sidecar : Option PyVal

/-- The outcome of a capture that aborts: `False`, nothing written. -/
def failOutput : FrameOutput :=
  ⟨false, [], none, none, none, [], none⟩

namespace SyntheticCaptureScenario

/-- `__init__` (lines 81-92). -/
def init : ScenarioState :=
  ⟨false, none, none, [], 0, false⟩

/-- `reset` (lines 98-107): stop the orchestrator and clear the
scene-binding fields. -/
def reset (st : ScenarioState) : ScenarioState :=
  { st with _created := false, _camera := none, _render_product := none, _prims := [] }

/-- `create_scene` (lines 109-167): `reset`, build the scene, bind camera,
render product and prims, set `_created`. -/
def create_scene (st : ScenarioState) : ScenarioState :=
  let st' := reset st
  { st' with
    _camera := some ()
    _render_product := some ()
    _prims := ["ground", "cone", "sphere", "cube"]
    _created := true }

/-- `generate_one_frame_async` (lines 169-464).  Fatal stages return
`failOutput` with the state unchanged; a capture that passes the guard,
the annotator fetches and the RGB shape check completes, increments the
frame index and writes the four artifacts. -/
def generate_one_frame_async (st : ScenarioState) (env : CaptureEnv) :
    FrameOutput × ScenarioState :=
  -- lines 170-172: guard
  if ¬st._created ∨ st._render_product = none then (failOutput, st)
  else
    match env.rgbFetch, env.semFetch, env.bboxFetch with
    | .ok rgbRaw, .ok semRaw, .ok bboxRaw =>
      -- lines 192-195: RGB shape check
      if ¬(rgbRaw.ndim = 3 ∧ (rgbRaw.shape.getD 2 0 = 3 ∨ rgbRaw.shape.getD 2 0 = 4)) then
        (failOutput, st)
      else
        let res_w := RESOLUTION.1
        let res_h := RESOLUTION.2
        -- lines 197-202
        let rgb_rgb := normalizeRgb3 (toT3 rgbRaw) res_w res_h
        let H := rgb_rgb.length
        let W := (rgb_rgb.headD []).length
        -- lines 207-235
        let sd := semRaw.view
        let sem_ids := normalizeSemGrid sd.1 H W res_w res_h
        let tblVal := sd.2
        -- lines 237-255
        let mask := maskOf tblVal sem_ids
        -- lines 305-318
        let bboxTbl := bboxTableOf bboxRaw
        -- lines 364-365
        let idx := st._frame_idx
        -- lines 377-423: per-row canonical boxes, labels, draw decisions
        let rowDraws := env.rows.map fun r =>
          let lbl := _resolve_label bboxTbl tblVal r.bid
          (lbl, boxDrawOps lbl st._draw_ground_label)
        -- lines 428-457
        let writes := ["rgb_" ++ pad4 idx ++ ".png", "mask_" ++ pad4 idx ++ ".png",
                       "overlay_" ++ pad4 idx ++ ".png", "bboxes_" ++ pad4 idx ++ ".json"]
        (⟨true, writes, some idx, some sem_ids, some mask, rowDraws,
          some (sidecarJson idx W H bboxRaw tblVal)⟩,
         { st with _frame_idx := st._frame_idx + 1 })
    | _, _, _ => (failOutput, st)

end SyntheticCaptureScenario

/-! ## Session traces (for the frame-index invariants) -/

/-- One user-driven operation on a scenario within a session. -/
inductive SessionOp where
  | reset
  | create
  | gen (env : CaptureEnv)

/-- Apply one operation: the new state, plus the frame index consumed by a
successful capture (the index its artifact files are named after). -/
def applyOp (st : ScenarioState) : SessionOp → ScenarioState × Option ℕ
  | .reset => (SyntheticCaptureScenario.reset st, none)
  | .create => (SyntheticCaptureScenario.create_scene st, none)
  | .gen env =>
    let r := SyntheticCaptureScenario.generate_one_frame_async st env
    (r.2, r.1.emitted)

/-- Run a session: final state and the list of consumed frame indices, in
order. -/
def runOps : ScenarioState → List SessionOp → ScenarioState × List ℕ
  | st, [] => (st, [])
  | st, op :: ops =>
    let r := applyOp st op
    let rest := runOps r.1 ops
    (rest.1, r.2.toList ++ rest.2)


/-! # Theorems -/

/-! ## Helper lemmas about `sort2` clamping -/

/-- `sorted((a, b))` is ordered. -/
theorem sort2_ordered (a b : ℤ) : (sort2 a b).1 ≤ (sort2 a b).2 := by
  simp only [sort2]
  split_ifs <;> simp <;> omega

/-- When the lower clamp stays at most `lim` and the upper clamp stays at
least `0`, the sorted clamped pair lies within `[0, lim]`. -/
theorem sort2_clamp (t1 t2 lim : ℤ) (hlim : 0 ≤ lim) (h1 : t1 ≤ lim) (h2 : 0 ≤ t2) :
    (sort2 (max 0 t1) (min lim t2)).1 ≤ (sort2 (max 0 t1) (min lim t2)).2 ∧
    0 ≤ (sort2 (max 0 t1) (min lim t2)).1 ∧
    (sort2 (max 0 t1) (min lim t2)).1 ≤ lim ∧
    0 ≤ (sort2 (max 0 t1) (min lim t2)).2 ∧
    (sort2 (max 0 t1) (min lim t2)).2 ≤ lim := by
  simp only [sort2, max_def, min_def]
  split_ifs <;> simp_all <;> omega

/-! ## C5: the fractional-vs-pixel heuristic -/

/-- **C5.**  For every box row, if all four coordinates `xmin, ymin, xmax,
ymax` lie in `[0, 1.5]` then x coordinates are multiplied by the image
width and y coordinates by the image height, otherwise all four are left
unchanged; and the row `{semanticId: 7, x_min: 0.1, y_min: 0.2, x_max: 0.4,
y_max: 0.6}` at resolution `(200, 100)` normalizes to the pixel box
`(20, 20)-(80, 60)`. -/
theorem C5_to_pixel_coords_heuristic :
    (∀ (xmin ymin xmax ymax : ℚ) (W H : ℤ),
      _to_pixel_coords xmin ymin xmax ymax W H =
        if (0 ≤ xmin ∧ xmin ≤ mkRat 3 2) ∧ (0 ≤ ymin ∧ ymin ≤ mkRat 3 2) ∧
           (0 ≤ xmax ∧ xmax ≤ mkRat 3 2) ∧ (0 ≤ ymax ∧ ymax ≤ mkRat 3 2) then
          (xmin * W, ymin * H, xmax * W, ymax * H)
        else (xmin, ymin, xmax, ymax)) ∧
    canonicalBox (mkRat 1 10) (mkRat 2 10) (mkRat 4 10) (mkRat 6 10) 200 100
      = (20, 20, 80, 60) := by
  constructor
  · intro xmin ymin xmax ymax W H
    unfold _to_pixel_coords
    split_ifs with h1 h2 h3 <;> first | rfl | (exfalso; tauto)
  · have h : _to_pixel_coords (mkRat 1 10) (mkRat 2 10) (mkRat 4 10) (mkRat 6 10) 200 100
        = (20, 20, 80, 60) := by
      unfold _to_pixel_coords
      rw [if_pos (by norm_num [mkRat])]
      norm_num [mkRat]
    unfold canonicalBox
    rw [h]
    decide

/-! ## C1: canonical-box ordering and clamping -/

/-- **C1, counterexample.**  The claim "all four integer coordinates lie
within `[0, W-1]` / `[0, H-1]` for arbitrary (including out-of-range)
input coordinates" is false: the pixel-space row with
`xmin = xmax = 5000`, `ymin = 10`, `ymax = 20` at `W = 200`, `H = 100`
produces the canonical box `(199, 10, 5000, 20)`, whose `xmax` exceeds
`W - 1 = 199`. -/
theorem C1_counterexample :
    canonicalBox 5000 10 5000 20 200 100 = (199, 10, 5000, 20) ∧
    ¬ boxWithinBounds (canonicalBox 5000 10 5000 20 200 100) 200 100 := by
  constructor <;> decide

/-- **C1, amended.**  For every bounding-box row and arbitrary input
coordinates, the canonical box always satisfies `xmin ≤ xmax` and
`ymin ≤ ymax` (first conjunct, no side conditions); and all four
coordinates lie within `[0, W-1] × [0, H-1]` provided `W, H ≥ 1` and the
truncated normalized `xmin` is at most `W - 1`, the truncated normalized
`xmax` is at least `0`, and likewise on the y axis (in particular, whenever
the normalized box overlaps the image).  A box entirely beyond one image
edge keeps an out-of-range coordinate (see the counterexample). -/
theorem C1_canonicalBox_ordered_and_clamped
    (xmin ymin xmax ymax : ℚ) (W H : ℤ) :
    ((canonicalBox xmin ymin xmax ymax W H).1 ≤
       (canonicalBox xmin ymin xmax ymax W H).2.2.1 ∧
     (canonicalBox xmin ymin xmax ymax W H).2.1 ≤
       (canonicalBox xmin ymin xmax ymax W H).2.2.2) ∧
    (1 ≤ W → 1 ≤ H →
     pyTrunc (_to_pixel_coords xmin ymin xmax ymax W H).1 ≤ W - 1 →
     0 ≤ pyTrunc (_to_pixel_coords xmin ymin xmax ymax W H).2.2.1 →
     pyTrunc (_to_pixel_coords xmin ymin xmax ymax W H).2.1 ≤ H - 1 →
     0 ≤ pyTrunc (_to_pixel_coords xmin ymin xmax ymax W H).2.2.2 →
     boxWithinBounds (canonicalBox xmin ymin xmax ymax W H) W H) := by
  constructor
  · exact ⟨sort2_ordered _ _, sort2_ordered _ _⟩
  · intro hW hH hx1 hx2 hy1 hy2
    unfold boxWithinBounds canonicalBox
    obtain ⟨ox, lx1, ux1, lx2, ux2⟩ :=
      sort2_clamp (pyTrunc (_to_pixel_coords xmin ymin xmax ymax W H).1)
        (pyTrunc (_to_pixel_coords xmin ymin xmax ymax W H).2.2.1) (W - 1)
        (by omega) hx1 hx2
    obtain ⟨oy, ly1, uy1, ly2, uy2⟩ :=
      sort2_clamp (pyTrunc (_to_pixel_coords xmin ymin xmax ymax W H).2.1)
        (pyTrunc (_to_pixel_coords xmin ymin xmax ymax W H).2.2.2) (H - 1)
        (by omega) hy1 hy2
    exact ⟨ox, oy, lx1, ux1, lx2, ux2, ly1, uy1, ly2, uy2⟩

/-- **C1, witness** for the amended theorem, at two inputs: the fully
out-of-range pixel-space box `(5000, 10, 5000, 20)` is still ordered
(first, unconditional conjunct), and the fractional box
`(0.1, 0.2, 0.4, 0.6)` at `(W, H) = (200, 100)` satisfies the side
conditions and lands inside the bounds. -/
theorem C1_canonicalBox_witness :
    ((canonicalBox 5000 10 5000 20 200 100).1 ≤
       (canonicalBox 5000 10 5000 20 200 100).2.2.1 ∧
     (canonicalBox 5000 10 5000 20 200 100).2.1 ≤
       (canonicalBox 5000 10 5000 20 200 100).2.2.2) ∧
    boxWithinBounds
      (canonicalBox (mkRat 1 10) (mkRat 2 10) (mkRat 4 10) (mkRat 6 10) 200 100)
      200 100 := by
  have h : _to_pixel_coords (mkRat 1 10) (mkRat 2 10) (mkRat 4 10) (mkRat 6 10) 200 100
      = (20, 20, 80, 60) := by
    unfold _to_pixel_coords
    rw [if_pos (by norm_num [mkRat])]
    norm_num [mkRat]
  refine ⟨(C1_canonicalBox_ordered_and_clamped 5000 10 5000 20 200 100).1, ?_⟩
  exact (C1_canonicalBox_ordered_and_clamped (mkRat 1 10) (mkRat 2 10) (mkRat 4 10)
    (mkRat 6 10) 200 100).2 (by decide) (by decide)
    (by rw [h]; decide) (by rw [h]; decide) (by rw [h]; decide) (by rw [h]; decide)

/-! ## Session-level frame-index lemmas (C4, C10) -/

/-- Every operation either consumes no frame index and leaves the counter
unchanged, or consumes exactly the current index and increments the
counter. -/
theorem applyOp_frame_idx (st : ScenarioState) (op : SessionOp) :
    ((applyOp st op).2 = none ∧ (applyOp st op).1._frame_idx = st._frame_idx) ∨
    ((applyOp st op).2 = some st._frame_idx ∧
     (applyOp st op).1._frame_idx = st._frame_idx + 1) := by
  cases op with
  | reset => left; exact ⟨rfl, rfl⟩
  | create => left; exact ⟨rfl, rfl⟩
  | gen env =>
    obtain ⟨rf, sf, bf, rows⟩ := env
    unfold applyOp SyntheticCaptureScenario.generate_one_frame_async
    dsimp only
    by_cases hguard : ¬st._created ∨ st._render_product = none
    · rw [if_pos hguard]; left; exact ⟨rfl, rfl⟩
    · rw [if_neg hguard]
      cases rf with
      | raises => cases sf <;> cases bf <;> exact Or.inl ⟨rfl, rfl⟩
      | ok a =>
        cases sf with
        | raises => cases bf <;> exact Or.inl ⟨rfl, rfl⟩
        | ok s =>
          cases bf with
          | raises => exact Or.inl ⟨rfl, rfl⟩
          | ok b =>
            dsimp only
            by_cases hshape :
              ¬(a.ndim = 3 ∧ (a.shape.getD 2 0 = 3 ∨ a.shape.getD 2 0 = 4))
            · rw [if_pos hshape]
              left; exact ⟨rfl, rfl⟩
            · rw [if_neg hshape]
              right; exact ⟨rfl, rfl⟩

/-- Along any session run, the consumed frame indices are strictly
increasing and bounded below by the starting counter. -/
theorem runOps_pairwise_lb (ops : List SessionOp) : ∀ st : ScenarioState,
    List.Pairwise (· < ·) (runOps st ops).2 ∧
    ∀ i ∈ (runOps st ops).2, st._frame_idx ≤ i := by
  induction ops with
  | nil => intro st; simp [runOps]
  | cons op ops ih =>
    intro st
    obtain ⟨hpw, hlb⟩ := ih (applyOp st op).1
    rcases applyOp_frame_idx st op with ⟨he, hf⟩ | ⟨he, hf⟩
    · constructor
      · simpa [runOps, he] using hpw
      · intro i hi
        have hi' : i ∈ (runOps (applyOp st op).1 ops).2 := by
          simpa [runOps, he] using hi
        have := hlb i hi'
        omega
    · constructor
      · have : List.Pairwise (· < ·) (st._frame_idx :: (runOps (applyOp st op).1 ops).2) := by
          refine List.pairwise_cons.mpr ⟨?_, hpw⟩
          intro j hj
          have := hlb j hj
          omega
        simpa [runOps, he] using this
      · intro i hi
        have hi' : i = st._frame_idx ∨ i ∈ (runOps (applyOp st op).1 ops).2 := by
          simpa [runOps, he] using hi
        rcases hi' with rfl | hi'
        · omega
        · have := hlb i hi'
          omega

/-! ## C10: reset keeps the frame index; indices are never reused -/

/-- **C10.**  `reset` clears exactly the scene-binding fields (`_created`,
`_camera`, `_render_product`, `_prims`) and never touches the frame-index
counter; no operation ever decreases the counter; and across any
interleaving of `create_scene`, `generate_one_frame_async` and `reset` in
one session, the consumed frame indices (hence the artifact file names) are
strictly increasing — never reused, in particular not after a reset. -/
theorem C10_reset_and_frame_index_monotone :
    (∀ st, SyntheticCaptureScenario.reset st =
      { st with _created := false, _camera := none,
                _render_product := none, _prims := [] }) ∧
    (∀ st op, st._frame_idx ≤ (applyOp st op).1._frame_idx) ∧
    (∀ ops, List.Pairwise (· < ·) (runOps SyntheticCaptureScenario.init ops).2) := by
  refine ⟨fun st => rfl, fun st op => ?_, fun ops => (runOps_pairwise_lb ops _).1⟩
  rcases applyOp_frame_idx st op with ⟨_, hf⟩ | ⟨_, hf⟩ <;> omega

/-! ## C4: fatal stages abort without artifacts or index advance -/

/-- **C4.**  If an annotator `get_data()` call raises, or the raw color
buffer is not a 3-dimensional array with 3 or 4 trailing channels, then
`generate_one_frame_async` returns the failure result `False`, writes no
artifact files, and leaves the state (in particular the frame-index
counter) unchanged; and in every run the counter either stays put or
advances by exactly one together with a successful capture. -/
theorem C4_fatal_stages (st : ScenarioState) (env : CaptureEnv) :
    ((env.rgbFetch = .raises ∨ env.semFetch = .raises ∨ env.bboxFetch = .raises) →
      SyntheticCaptureScenario.generate_one_frame_async st env = (failOutput, st)) ∧
    (∀ a, env.rgbFetch = .ok a →
      ¬(a.ndim = 3 ∧ (a.shape.getD 2 0 = 3 ∨ a.shape.getD 2 0 = 4)) →
      SyntheticCaptureScenario.generate_one_frame_async st env = (failOutput, st)) ∧
    ((SyntheticCaptureScenario.generate_one_frame_async st env).2 = st ∨
     ((SyntheticCaptureScenario.generate_one_frame_async st env).2._frame_idx
        = st._frame_idx + 1 ∧
      (SyntheticCaptureScenario.generate_one_frame_async st env).1.ok = true)) := by
  obtain ⟨rf, sf, bf, rows⟩ := env
  unfold SyntheticCaptureScenario.generate_one_frame_async
  by_cases hguard : ¬st._created ∨ st._render_product = none
  · rw [if_pos hguard]
    exact ⟨fun _ => rfl, fun _ _ _ => rfl, Or.inl rfl⟩
  · rw [if_neg hguard]
    dsimp only
    cases rf with
    | raises =>
      cases sf <;> cases bf <;>
        refine ⟨fun _ => rfl, fun a' ha' _ => ?_, Or.inl rfl⟩ <;>
        exact absurd ha' (by simp)
    | ok a =>
      cases sf with
      | raises =>
        cases bf <;>
          exact ⟨fun h => rfl, fun a' ha' _ => rfl, Or.inl rfl⟩
      | ok s =>
        cases bf with
        | raises => exact ⟨fun h => rfl, fun a' ha' _ => rfl, Or.inl rfl⟩
        | ok b =>
          dsimp only
          refine ⟨fun h => ?_, fun a' ha' hbad => ?_, ?_⟩
          · rcases h with h | h | h <;> exact absurd h (by simp)
          · cases ha'
            rw [if_pos hbad]
          · by_cases hbad :
              ¬(a.ndim = 3 ∧ (a.shape.getD 2 0 = 3 ∨ a.shape.getD 2 0 = 4))
            · rw [if_pos hbad]
              exact Or.inl rfl
            · rw [if_neg hbad]
              exact Or.inr ⟨rfl, rfl⟩

/-- **C4, witness**: with a created scene and a raising RGB fetch, the call
returns the failure result and the state is unchanged. -/
theorem C4_fatal_stages_witness :
    SyntheticCaptureScenario.generate_one_frame_async
        (SyntheticCaptureScenario.create_scene SyntheticCaptureScenario.init)
        ⟨.raises, .raises, .raises, []⟩ =
      (failOutput, SyntheticCaptureScenario.create_scene SyntheticCaptureScenario.init) :=
  (C4_fatal_stages _ _).1 (Or.inl rfl)

/-! ## C6: per-box drawing decisions -/

/-- `_resolve_label` never returns the empty string: every successful
resolution passed a truthiness check. -/
theorem resolve_label_ne_empty (t1 : PyEntries) (v : PyVal) (sid : ℤ) :
    _resolve_label t1 v sid ≠ some "" := by
  unfold _resolve_label
  by_cases h1 : truthyS (_extract_class (tableLookup t1 sid)) = true
  · rw [if_pos h1]
    intro hc
    rw [hc] at h1
    simp [truthyS] at h1
  · rw [if_neg h1]
    rcases v with _ | s | n | q | xs | xs | es2 | xs | q
    · simp
    · simp
    · simp
    · simp
    · simp
    · simp
    · dsimp only
      by_cases h2 : truthyS (_extract_class (tableLookup es2 sid)) = true
      · rw [if_pos h2]
        intro hc
        rw [hc] at h2
        simp [truthyS] at h2
      · rw [if_neg h2]
        simp
    · simp
    · simp

/-- **C6.**  For every box, with ground-label drawing disabled (the
`__init__` default): an unresolved label draws exactly an outline
rectangle and no text; a label resolving to `"ground"` draws nothing at
all; any other resolved label draws the outline rectangle, the 8-direction
black halo text and the white label text. -/
theorem C6_box_draw_cases (t1 t2 : PyEntries) (sid : ℤ) :
    boxDrawOps (_resolve_label t1 (.pyDict t2) sid) false =
      match _resolve_label t1 (.pyDict t2) sid with
      | none => [DrawOp.rect]
      | some s =>
        if s = "ground" then []
        else
          [DrawOp.rect] ++ haloOffsets.map (fun o => DrawOp.text o.1 o.2 (0, 0, 0))
            ++ [DrawOp.text 0 0 (255, 255, 255)] := by
  have hne := resolve_label_ne_empty t1 (.pyDict t2) sid
  cases h : _resolve_label t1 (.pyDict t2) sid with
  | none => simp [boxDrawOps, truthyS]
  | some s =>
    have hs : s ≠ "" := by
      intro hc
      rw [hc] at h
      exact hne h
    by_cases hg : s = "ground"
    · subst hg
      simp [boxDrawOps, truthyS]
    · simp [boxDrawOps, truthyS, hs, hg]

/-! ## C2: the Label Resolver follows the specified contract -/

/-- The source's nested `get`-with-default lookup equals the spec's
"string key, then integer key" lookup with a `None` default. -/
theorem tableLookup_eq (es : PyEntries) (sid : ℤ) :
    tableLookup es sid = (specLookup es sid).getD .pyNone := by
  unfold tableLookup specLookup
  cases h1 : es.get? (.inl (toString sid)) <;>
    cases h2 : es.get? (.inr sid) <;>
      simp [h1, h2, Option.orElse]

/-- Extraction is insensitive to representing a missing lookup as `None`. -/
theorem specExtract_getD (o : Option PyVal) :
    specExtract o = specExtract (some (o.getD .pyNone)) := by
  cases o <;> rfl

/-- The `labels.class` fallback of the source coincides with the spec-side
`labels.class` extractor. -/
theorem extract_labels_eq_spec (es : PyEntries) :
    _extract_class._extract_class_labels es =
      specExtract.specLabelsClassField (some (.pyDict es)) := by
  unfold _extract_class._extract_class_labels specExtract.specLabelsClassField
  dsimp only
  cases h1 : es.get? (.inl "labels") with
  | none => rfl
  | some v =>
    cases v <;> try rfl
    case pyDict les =>
      dsimp only
      cases h2 : les.get? (.inl "class") with
      | none => rfl
      | some w =>
        cases w <;> try rfl
        case pyStr c2 =>
          dsimp only
          by_cases hc : c2 = "" <;> simp [hc]

/-- The `labels.class` fallback never produces the empty string, so the
caller's truthiness filter is the identity on it. -/
theorem truthy_filter_labels (es : PyEntries) :
    (if truthyS (_extract_class._extract_class_labels es) = true then
       _extract_class._extract_class_labels es
     else none) = _extract_class._extract_class_labels es := by
  unfold _extract_class._extract_class_labels
  cases h1 : es.get? (.inl "labels") with
  | none => rfl
  | some v =>
    cases v <;> try rfl
    case pyDict les =>
      dsimp only
      cases h2 : les.get? (.inl "class") with
      | none => rfl
      | some w =>
        cases w <;> try rfl
        case pyStr c2 =>
          dsimp only
          by_cases hc : c2 = "" <;> simp [hc, truthyS]

/-- The truthiness-filtered source extraction equals the spec-side
extraction (`class` field, then `labels.class`, then bare string, nonempty
strings only). -/
theorem truthy_filter_extract (v : PyVal) :
    (if truthyS (_extract_class v) = true then _extract_class v else none) =
      specExtract (some v) := by
  cases v <;> try rfl
  case pyStr s =>
    unfold specExtract specExtract.specClassField specExtract.specLabelsClassField
      specExtract.specBareString _extract_class
    dsimp only
    by_cases hs : s = "" <;> simp [hs, truthyS]
  case pyDict es =>
    have hfb := truthy_filter_labels es
    have hsp := extract_labels_eq_spec es
    unfold specExtract specExtract.specClassField specExtract.specBareString _extract_class
    dsimp only
    cases h1 : es.get? (.inl "class") with
    | none =>
      dsimp only
      rw [hfb, hsp]
      cases hX : specExtract.specLabelsClassField (some (.pyDict es)) <;> rfl
    | some v' =>
      cases v' <;> dsimp only <;>
        try (rw [hfb, hsp]
             cases hX : specExtract.specLabelsClassField (some (.pyDict es)) <;> rfl)
      case pyStr c =>
        by_cases hc : c = ""
        · subst hc
          simp only [ne_eq, not_true_eq_false, if_false, reduceIte]
          rw [hfb, hsp]
          cases hX : specExtract.specLabelsClassField (some (.pyDict es)) <;> rfl
        · simp [hc, truthyS]

/-- **C2.**  `_resolve_label` implements exactly the specified resolution
contract: look the id up in the bbox-scoped (primary) table under its
string key form and then its integer key form; extract the class name from
a `class` field, from a nested `labels.class` field, or from a bare string
value; on failure repeat the same extraction on the semantic-map-scoped
(secondary) table; and if both fail return absence. -/
theorem C2_resolve_label_follows_contract (t1 t2 : PyEntries) (sid : ℤ) :
    _resolve_label t1 (.pyDict t2) sid = specResolve t1 t2 sid := by
  unfold _resolve_label specResolve
  dsimp only
  have hA : (if truthyS (_extract_class (tableLookup t1 sid)) = true then
               _extract_class (tableLookup t1 sid) else none) =
      specExtract (specLookup t1 sid) := by
    rw [truthy_filter_extract, specExtract_getD (specLookup t1 sid), ← tableLookup_eq]
  have hB : (if truthyS (_extract_class (tableLookup t2 sid)) = true then
               _extract_class (tableLookup t2 sid) else none) =
      specExtract (specLookup t2 sid) := by
    rw [truthy_filter_extract, specExtract_getD (specLookup t2 sid), ← tableLookup_eq]
  by_cases h1 : truthyS (_extract_class (tableLookup t1 sid)) = true
  · rw [if_pos h1]
    rw [if_pos h1] at hA
    rw [← hA]
    cases hl : _extract_class (tableLookup t1 sid) with
    | none => rw [hl] at h1; simp [truthyS] at h1
    | some s => rfl
  · rw [if_neg h1]
    rw [if_neg h1] at hA
    rw [← hA, ← hB]

/-! ## C3: the color mask uses dict-only label extraction -/

/-- One mask-loop step equals the last-match spec step: the step overwrites
the pixel exactly when the entry paints this pixel id. -/
theorem maskStep_eq (pid : ℤ) (c : ℕ × ℕ × ℕ) (k : PyKey) (v : PyVal) :
    maskStep pid c k v = (maskEntryColor pid k v).getD c := by
  unfold maskStep maskEntryColor
  cases hk : keyToInt k with
  | none => rfl
  | some sid =>
    cases hv : maskLabelRaw v with
    | none => by_cases hp : sid = pid <;> simp [hp]
    | some lbl =>
      rcases lbl with _ | s | n | q | xs | xs | des | xs | q
      case pyStr =>
        by_cases hs : s = ""
        · subst hs
          by_cases hp : sid = pid <;> simp [hp, truthyV, lookupColor, CLASS_TO_COLOR]
        · cases hc : lookupColor s with
          | none => by_cases hp : sid = pid <;> simp [hp, truthyV, hs, hc]
          | some col => by_cases hp : sid = pid <;> simp [hp, truthyV, hs, hc]
      all_goals by_cases hp : sid = pid <;> simp [hp, truthyV]

/-- The mask fold equals the last-painting-entry characterization. -/
theorem maskFold_eq : ∀ (es : PyEntries) (pid : ℤ) (c : ℕ × ℕ × ℕ),
    maskFold es pid c = maskPixelSpec.maskPixelSpecGo es pid c
  | .nil, _, _ => rfl
  | .cons k v tl, pid, c => by
    show maskFold tl pid (maskStep pid c k v) = _
    rw [maskStep_eq]
    exact maskFold_eq tl pid _

/-- **C3, counterexample.**  An `idToLabels` entry `{"7": "cone"}` (a bare
string value) resolves to class `"cone"` under the Label Resolver contract,
and `"cone"` has color `(255,0,0)` in `CLASS_TO_COLOR`, yet the mask loop
leaves pixels of id 7 black: its inlined extraction only consults dict
values. -/
theorem C3_counterexample :
    _resolve_label .nil (.pyDict (.cons (.inl "7") (.pyStr "cone") .nil)) 7
      = some "cone" ∧
    lookupColor "cone" = some (255, 0, 0) ∧
    maskPixel (.cons (.inl "7") (.pyStr "cone") .nil) 7 = (0, 0, 0) := by
  refine ⟨?_, by decide, by decide⟩
  decide

/-- **C3, amended.**  For every pixel of the id grid, the mask pixel is the
color of the last table entry whose key int-parses to the pixel's id and
whose value is a dict carrying a `class` (or, when `class` is absent or
`None`, a `labels.class`) string naming a class of `CLASS_TO_COLOR`; every
other pixel is black — bare-string table values never colorize.  In
particular `{"7": {"class": "cone"}}` with color `("cone", (255,0,0))`
paints every pixel of id 7 as `(255,0,0)`.  (The safety hypothesis
restricts tables to those on which the Python loop does not raise:
extracted labels are scalars.) -/
theorem C3_mask_pixel_amended :
    (∀ (es : PyEntries) (pid : ℤ), MaskSafeEntries es = true →
        maskPixel es pid = maskPixelSpec es pid) ∧
    maskOf (.pyDict (.cons (.inl "7")
        (.pyDict (.cons (.inl "class") (.pyStr "cone") .nil)) .nil))
        [[7, 3], [0, 7]]
      = [[(255, 0, 0), (0, 0, 0)], [(0, 0, 0), (255, 0, 0)]] :=
  ⟨fun es pid _ => maskFold_eq es pid (0, 0, 0), by decide⟩

/-- **C3, witness** for the amended characterization at a concrete safe
table. -/
theorem C3_mask_pixel_amended_witness :
    MaskSafeEntries (.cons (.inl "5")
        (.pyDict (.cons (.inl "class") (.pyStr "cube") .nil)) .nil) = true ∧
    maskPixel (.cons (.inl "5")
        (.pyDict (.cons (.inl "class") (.pyStr "cube") .nil)) .nil) 5
      = maskPixelSpec (.cons (.inl "5")
        (.pyDict (.cons (.inl "class") (.pyStr "cube") .nil)) .nil) 5 :=
  ⟨by decide, C3_mask_pixel_amended.1 _ 5 (by decide)⟩

/-! ## C9: the JSON sidecar document -/

mutual
/-- `_to_jsonable` output is JSON-safe: no ndarray, numpy scalar or tuple
remains and every dictionary key is a string. -/
theorem jsonSafe_to_jsonable : ∀ v : PyVal, JsonSafe (to_jsonable v) = true
  | .pyNone => rfl
  | .pyStr _ => rfl
  | .pyInt _ => rfl
  | .pyFloat _ => rfl
  | .pyList xs => jsonSafeSeq_to_jsonable xs
  | .pyTuple xs => jsonSafeSeq_to_jsonable xs
  | .pyDict es => jsonSafeEntries_to_jsonable es
  | .npArr xs => jsonSafeSeq_to_jsonable xs
  | .npScalar _ => rfl

theorem jsonSafeSeq_to_jsonable : ∀ xs : PySeq,
    JsonSafeSeq (to_jsonable_seq xs) = true
  | .nil => rfl
  | .cons v tl => by
    show (JsonSafe (to_jsonable v) && JsonSafeSeq (to_jsonable_seq tl)) = true
    rw [jsonSafe_to_jsonable v, jsonSafeSeq_to_jsonable tl]
    rfl

theorem jsonSafeEntries_to_jsonable : ∀ es : PyEntries,
    JsonSafeEntries (to_jsonable_entries es) = true
  | .nil => rfl
  | .cons k v tl => by
    show ((match (Sum.inl (keyStr k) : PyKey) with
           | .inl _ => true | .inr _ => false) &&
          JsonSafe (to_jsonable v) && JsonSafeEntries (to_jsonable_entries tl)) = true
    rw [jsonSafe_to_jsonable v, jsonSafeEntries_to_jsonable tl]
    rfl
end

/-- **C9.**  The JSON sidecar written as `bboxes_NNNN.json` is a dictionary
with exactly the four keys `frame` (the integer frame index), `resolution`
(the list `[W, H]`), `bbox` (the raw bounding-box payload, converted) and
`idToLabels_semantic` (the semantic label table value, converted); and the
whole document is JSON-safe: every array-like value has been recursively
converted to nested plain lists/scalars and every dictionary key to a
string. -/
theorem C9_sidecar_structure (idx : ℕ) (W H : ℤ)
    (bbox_raw id_to_labels_sem : PyVal) :
    sidecarJson idx W H bbox_raw id_to_labels_sem =
      .pyDict (.cons (.inl "frame") (.pyInt idx)
        (.cons (.inl "resolution")
          (.pyList (.cons (.pyInt W) (.cons (.pyInt H) .nil)))
          (.cons (.inl "bbox") (to_jsonable bbox_raw)
            (.cons (.inl "idToLabels_semantic")
              (to_jsonable id_to_labels_sem) .nil)))) ∧
    JsonSafe (sidecarJson idx W H bbox_raw id_to_labels_sem) = true :=
  ⟨rfl, jsonSafe_to_jsonable _⟩

/-! ## C8: buffer normalization is invariant to axis order -/

/-- A rectangular 2D nested list of the given dimensions. -/
def Rect2 {α : Type} (x : List (List α)) (a b : ℕ) : Prop :=
  x.length = a ∧ ∀ r ∈ x, r.length = b

/-- A rectangular 3D nested list of the given dimensions. -/
def Rect3 (x : T3) (a b c : ℕ) : Prop :=
  x.length = a ∧ ∀ r ∈ x, r.length = b ∧ ∀ p ∈ r, p.length = c

theorem transposeL_eq {α : Type} (x : List (List α)) (d : α) (hne : x ≠ []) :
    transposeL x d = (List.range (x.headD []).length).map
      (fun j => x.map (fun row => row.getD j d)) := by
  cases x with
  | nil => exact absurd rfl hne
  | cons r tl => rfl

/-- Transposition swaps the outer two dimensions and preserves any
elementwise property. -/
theorem transposeL_shape {α : Type} (x : List (List α)) (d : α) (a b : ℕ)
    (P : α → Prop) (hlen : x.length = a)
    (hrows : ∀ r ∈ x, r.length = b ∧ ∀ e ∈ r, P e) (ha : 0 < a) :
    (transposeL x d).length = b ∧
    ∀ r ∈ transposeL x d, r.length = a ∧ ∀ e ∈ r, P e := by
  have hne : x ≠ [] := by
    intro h
    rw [h] at hlen
    simp at hlen
    omega
  have hhead : (x.headD []).length = b := by
    cases x with
    | nil => exact absurd rfl hne
    | cons r tl => exact (hrows r (by simp)).1
  rw [transposeL_eq x d hne]
  constructor
  · rw [List.length_map, List.length_range]
    exact hhead
  · intro r hr
    simp only [List.mem_map, List.mem_range] at hr
    obtain ⟨j, hj, rfl⟩ := hr
    refine ⟨by simp [hlen], ?_⟩
    intro e he
    simp only [List.mem_map] at he
    obtain ⟨row, hrow, rfl⟩ := he
    have hb := (hrows row hrow).1
    have hjb : j < row.length := by
      rw [hb]
      rw [hhead] at hj
      exact hj
    rw [List.getD_eq_getElem row d hjb]
    exact (hrows row hrow).2 _ (List.getElem_mem hjb)

theorem getD_map_row {α β : Type} (x : List α) (f : α → β) (j : ℕ) (d : β)
    (hj : j < x.length) :
    (x.map f).getD j d = f x[j] := by
  rw [List.getD_eq_getElem _ d (by simpa using hj)]
  simp

theorem range_map_getD {α : Type} (b : ℕ) (l : List α) (d : α) (hl : l.length = b) :
    (List.range b).map (fun i => l.getD i d) = l := by
  apply List.ext_getElem?
  intro i
  by_cases hi : i < b
  · have hil : i < l.length := by omega
    rw [List.getElem?_map, List.getElem?_range hi, List.getElem?_eq_getElem hil]
    simp only [Option.map_some']
    rw [List.getD_eq_getElem l d hil]
  · rw [List.getElem?_map]
    rw [List.getElem?_eq_none (by simpa using hi)]
    rw [List.getElem?_eq_none (by omega)]
    rfl

/-- Transposing twice is the identity on nonempty rectangular arrays. -/
theorem transposeL_transposeL {α : Type} (x : List (List α)) (d : α) (a b : ℕ)
    (hx : Rect2 x a b) (ha : 0 < a) (hb : 0 < b) :
    transposeL (transposeL x d) d = x := by
  obtain ⟨hlen, hrows⟩ := hx
  have hT := transposeL_shape x d a b (fun _ => True) hlen
    (fun r hr => ⟨hrows r hr, fun _ _ => trivial⟩) ha
  have hTne : transposeL x d ≠ [] := by
    intro h
    rw [h] at hT
    simp at hT
    omega
  have hne : x ≠ [] := by
    intro h
    rw [h] at hlen
    simp at hlen
    omega
  have hThead : ((transposeL x d).headD []).length = a := by
    cases hTc : transposeL x d with
    | nil => exact absurd hTc hTne
    | cons r tl =>
      have hrmem : r ∈ transposeL x d := by rw [hTc]; simp
      simpa using (hT.2 r hrmem).1
  rw [transposeL_eq _ d hTne, hThead]
  apply List.ext_getElem?
  intro j
  by_cases hj : j < a
  · have hjx : j < x.length := by omega
    rw [List.getElem?_map, List.getElem?_range hj, List.getElem?_eq_getElem hjx]
    show some ((transposeL x d).map fun row => row.getD j d) = _
    have hhead : (x.headD []).length = b := by
      cases x with
      | nil => exact absurd rfl hne
      | cons r tl => exact hrows r (by simp)
    rw [transposeL_eq x d hne, hhead, List.map_map]
    have hinner : ∀ i : ℕ,
        ((fun row => row.getD j d) ∘ fun i => x.map fun row => row.getD i d) i =
          x[j].getD i d := by
      intro i
      show (x.map fun row => row.getD i d).getD j d = _
      rw [getD_map_row x (fun row => row.getD i d) j d hjx]
    rw [List.map_congr_left (fun i _ => hinner i)]
    rw [range_map_getD b x[j] d (hrows _ (List.getElem_mem hjx))]
  · rw [List.getElem?_map]
    rw [List.getElem?_eq_none (by simpa using hj)]
    rw [List.getElem?_eq_none (by omega)]
    rfl

/-- The head of a nonempty list of rows of length `b` has length `b`. -/
theorem headD_length {α : Type} (x : List (List α)) (b : ℕ)
    (hx : ∀ r ∈ x, r.length = b) (hne : x ≠ []) : (x.headD []).length = b := by
  cases x with
  | nil => exact absurd rfl hne
  | cons r tl => exact hx r (by simp)

/-- Forget the innermost dimension of a rectangular 3D array. -/
theorem rect2_of_rect3 (x : T3) (a b c : ℕ) (hx : Rect3 x a b c) :
    Rect2 x a b :=
  ⟨hx.1, fun r hr => (hx.2 r hr).1⟩

/-- The channel slice-and-cast step maps an `(a, b, c)` array with `c ≥ 3`
to an `(a, b, 3)` array. -/
theorem slice_rect (x : T3) (a b c : ℕ) (hx : Rect3 x a b c) (hc3 : 3 ≤ c) :
    Rect3 (x.map fun row => row.map fun px => (px.take 3).map fun v => v % 256)
      a b 3 := by
  obtain ⟨hlen, hrows⟩ := hx
  refine ⟨by simp [hlen], ?_⟩
  intro r hr
  simp only [List.mem_map] at hr
  obtain ⟨row, hrow, rfl⟩ := hr
  refine ⟨by simp [(hrows row hrow).1], ?_⟩
  intro p hp
  simp only [List.mem_map] at hp
  obtain ⟨px, hpx, rfl⟩ := hp
  have hl := (hrows row hrow).2 px hpx
  simp [List.length_take, hl]
  omega

/-- `normalizeRgb3` is the slice-and-cast of the conditionally transposed
buffer. -/
theorem normalizeRgb3_eq (X : T3) (rw rh : ℕ) :
    normalizeRgb3 X rw rh =
      (if X.length = rw ∧ (X.headD []).length = rh then transposeL X [] else X).map
        (fun row => row.map fun px => (px.take 3).map fun v => v % 256) := rfl

/-- **C8.**  For every valid 3-dimensional RGB buffer whose first two
dimensions are `(height, width)` or `(expected-width, expected-height)`,
with 3 or 4 channels and distinct configured width and height, buffer
normalization yields an `(H, W, 3)` array and is invariant to the input
axis order: `normalize(transpose(X)) = normalize(X)`. -/
theorem C8_buffer_normalizer (X : T3) (res_w res_h c : ℕ)
    (hne : res_w ≠ res_h) (hw : 0 < res_w) (hh : 0 < res_h) (hc : c = 3 ∨ c = 4)
    (hX : Rect3 X res_h res_w c ∨ Rect3 X res_w res_h c) :
    Rect3 (normalizeRgb3 X res_w res_h) res_h res_w 3 ∧
    normalizeRgb3 (transposeL X []) res_w res_h = normalizeRgb3 X res_w res_h := by
  have hc3 : 3 ≤ c := by omega
  rcases hX with hX | hX
  · -- X already arrives as (res_h, res_w, c)
    have hXne : X ≠ [] := by
      intro h
      rw [h] at hX
      have := hX.1
      simp at this
      omega
    have hcond : ¬(X.length = res_w ∧ (X.headD []).length = res_h) := by
      intro hco
      rw [hX.1] at hco
      exact hne (hco.1.symm)
    have hT := transposeL_shape X [] res_h res_w (fun p => p.length = c)
      hX.1 hX.2 hh
    have hTne : transposeL X [] ≠ [] := by
      intro h
      rw [h] at hT
      have := hT.1
      simp at this
      omega
    have hTcond : (transposeL X []).length = res_w ∧
        ((transposeL X []).headD []).length = res_h := by
      refine ⟨hT.1, headD_length _ _ (fun r hr => (hT.2 r hr).1) hTne⟩
    constructor
    · rw [normalizeRgb3_eq, if_neg hcond]
      exact slice_rect X res_h res_w c hX hc3
    · rw [normalizeRgb3_eq, if_pos hTcond, normalizeRgb3_eq, if_neg hcond]
      rw [transposeL_transposeL X [] res_h res_w (rect2_of_rect3 X _ _ _ hX) hh hw]
  · -- X arrives transposed, as (res_w, res_h, c)
    have hXne : X ≠ [] := by
      intro h
      rw [h] at hX
      have := hX.1
      simp at this
      omega
    have hcond : X.length = res_w ∧ (X.headD []).length = res_h := by
      refine ⟨hX.1, headD_length _ _ (fun r hr => (hX.2 r hr).1) hXne⟩
    have hT := transposeL_shape X [] res_w res_h (fun p => p.length = c)
      hX.1 hX.2 hw
    have hTrect : Rect3 (transposeL X []) res_h res_w c := ⟨hT.1, hT.2⟩
    have hTcond : ¬((transposeL X []).length = res_w ∧
        ((transposeL X []).headD []).length = res_h) := by
      intro hco
      rw [hT.1] at hco
      exact hne hco.1.symm
    constructor
    · rw [normalizeRgb3_eq, if_pos hcond]
      exact slice_rect _ res_h res_w c hTrect hc3
    · rw [normalizeRgb3_eq, if_neg hTcond, normalizeRgb3_eq, if_pos hcond]

/-- **C8, witness**: a concrete `(1, 2, 3)` buffer at configured resolution
`(2, 1)` is normalized identically to its axis-swapped transpose, with
output shape `(1, 2, 3)`. -/
theorem C8_buffer_normalizer_witness :
    Rect3 (normalizeRgb3 [[[1, 2, 3], [4, 5, 6]]] 2 1) 1 2 3 ∧
    normalizeRgb3 (transposeL [[[1, 2, 3], [4, 5, 6]]] []) 2 1 =
      normalizeRgb3 [[[1, 2, 3], [4, 5, 6]]] 2 1 :=
  C8_buffer_normalizer [[[1, 2, 3], [4, 5, 6]]] 2 1 3 (by decide) (by decide)
    (by decide) (Or.inl rfl) (Or.inl (by constructor <;> decide))

/-! ## C7: semantic-map normalization degradations -/

/-- A nonempty rectangular 3D `NDA` has `ndim = 3` and shape `[h, w, ch]`. -/
theorem nda_ndim_shape (a : NDA) (h w ch : ℕ) (hr : a.Rect [h, w, ch])
    (hh : 0 < h) (hw : 0 < w) (hch : 0 < ch) :
    a.ndim = 3 ∧ a.shape = [h, w, ch] := by
  cases a with
  | leaf v => simp [NDA.Rect] at hr
  | node xs =>
    simp only [NDA.Rect] at hr
    obtain ⟨hlen, hrows⟩ := hr
    cases xs with
    | nil => simp at hlen; omega
    | cons x rest =>
      have hx := hrows x (by simp)
      cases x with
      | leaf v => simp [NDA.Rect] at hx
      | node ys =>
        simp only [NDA.Rect] at hx
        obtain ⟨hylen, hyrows⟩ := hx
        cases ys with
        | nil => simp at hylen; omega
        | cons y yrest =>
          have hy := hyrows y (by simp)
          cases y with
          | leaf v => simp [NDA.Rect] at hy
          | node zs =>
            simp only [NDA.Rect] at hy
            obtain ⟨hzlen, hzrows⟩ := hy
            cases zs with
            | nil => simp at hzlen; omega
            | cons z zrest =>
              have hz := hzrows z (by simp)
              cases z with
              | node ws => simp [NDA.Rect] at hz
              | leaf v =>
                constructor
                · simp [NDA.ndim]
                · simp only [NDA.shape]
                  simp at hlen hylen hzlen
                  rw [hlen, hylen, hzlen]

/-- The 3D nested-list view of a rectangular 3D `NDA` is rectangular. -/
theorem toT3_rect3 (a : NDA) (h w ch : ℕ) (hr : a.Rect [h, w, ch]) :
    Rect3 (toT3 a) h w ch := by
  cases a with
  | leaf v => simp [NDA.Rect] at hr
  | node xs =>
    simp only [NDA.Rect] at hr
    obtain ⟨hlen, hrows⟩ := hr
    refine ⟨by simp [toT3, hlen], ?_⟩
    intro r hrm
    simp only [toT3, List.mem_map] at hrm
    obtain ⟨x, hx, rfl⟩ := hrm
    have hxr := hrows x hx
    cases x with
    | leaf v => simp [NDA.Rect] at hxr
    | node ys =>
      simp only [NDA.Rect] at hxr
      obtain ⟨hylen, hyrows⟩ := hxr
      refine ⟨by simp [hylen], ?_⟩
      intro p hpm
      simp only [List.mem_map] at hpm
      obtain ⟨y, hy, rfl⟩ := hpm
      have hyr := hyrows y hy
      cases y with
      | leaf v => simp [NDA.Rect] at hyr
      | node zs =>
        simp only [NDA.Rect] at hyr
        simp [hyr.1]

/-- `sem_ids[:, :, 0]` of a rectangular `(h, w, 1)` grid is an `(h, w)`
grid. -/
theorem squeeze_rect2 (a : NDA) (h w : ℕ) (hr : a.Rect [h, w, 1]) :
    Rect2 (toT2 (normalizeSemGrid.squeezeLast a)) h w := by
  cases a with
  | leaf v => simp [NDA.Rect] at hr
  | node xs =>
    simp only [NDA.Rect] at hr
    obtain ⟨hlen, hrows⟩ := hr
    constructor
    · simp [normalizeSemGrid.squeezeLast, toT2, hlen]
    · intro r hrm
      simp only [normalizeSemGrid.squeezeLast, toT2, List.map_map, List.mem_map] at hrm
      obtain ⟨x, hx, rfl⟩ := hrm
      have hxr := hrows x hx
      cases x with
      | leaf v => simp [NDA.Rect] at hxr
      | node ys =>
        simp only [NDA.Rect] at hxr
        simp [Function.comp, hxr.1]

/-- `np.zeros((h, w))` is an `(h, w)` grid. -/
theorem zeros2_rect2 (h w : ℕ) : Rect2 (zeros2 h w) h w := by
  refine ⟨by simp [zeros2], ?_⟩
  intro r hr
  simp only [zeros2, List.mem_replicate] at hr
  simp [hr.2]

/-- The head row of a nonempty `(a, b)` grid has length `b`. -/
theorem headD_len_of_rect2 {α : Type} (g : List (List α)) (a b : ℕ)
    (hg : Rect2 g a b) (ha : 0 < a) : (g.headD []).length = b := by
  refine headD_length g b hg.2 ?_
  intro h
  rw [h] at hg
  have := hg.1
  simp at this
  omega

/-- The final `(res_w, res_h)` transposition heuristic does not fire on an
`(h, w)` grid unless `(h, w) = (1280, 720)`. -/
theorem semGrid_final (g : List (List ℤ)) (h w : ℕ) (hg : Rect2 g h w)
    (hh : 0 < h) (hor : ¬(h = 1280 ∧ w = 720)) :
    (if g.length = 1280 ∧ (g.headD []).length = 720 then transposeL g 0 else g)
      = g := by
  rw [if_neg]
  intro hco
  rw [hg.1] at hco
  rw [headD_len_of_rect2 g h w hg hh] at hco
  exact hor hco

/-- Missing semantic data degrades to the all-zero `(H, W)` grid. -/
theorem normalizeSemGrid_noData (h w : ℕ) (hh : 0 < h) (hw : 0 < w)
    (hor : ¬(h = 1280 ∧ w = 720)) :
    normalizeSemGrid none h w 1280 720 = zeros2 h w := by
  unfold normalizeSemGrid
  dsimp only
  exact semGrid_final _ h w (zeros2_rect2 h w) hh hor

/-- A non-2D grid with no singleton trailing channel degrades to the
all-zero `(H, W)` grid. -/
theorem normalizeSemGrid_badShape (a : NDA) (h w : ℕ) (h2 : ¬a.ndim = 2)
    (h31 : ¬(a.ndim = 3 ∧ a.shape.getD 2 0 = 1)) (hh : 0 < h) (hw : 0 < w)
    (hor : ¬(h = 1280 ∧ w = 720)) :
    normalizeSemGrid (some a) h w 1280 720 = zeros2 h w := by
  unfold normalizeSemGrid
  dsimp only
  rw [if_neg h2, if_neg h31]
  exact semGrid_final _ h w (zeros2_rect2 h w) hh hor

/-- A rectangular `(h, w, 1)` grid is reduced to its 2D squeeze. -/
theorem normalizeSemGrid_squeeze (a : NDA) (h w : ℕ) (hr : a.Rect [h, w, 1])
    (hh : 0 < h) (hw : 0 < w) (hor : ¬(h = 1280 ∧ w = 720)) :
    normalizeSemGrid (some a) h w 1280 720
      = toT2 (normalizeSemGrid.squeezeLast a) := by
  have hns := nda_ndim_shape a h w 1 hr hh hw (by omega)
  have h2 : ¬a.ndim = 2 := by rw [hns.1]; decide
  have h31 : a.ndim = 3 ∧ a.shape.getD 2 0 = 1 := ⟨hns.1, by rw [hns.2]; rfl⟩
  unfold normalizeSemGrid
  dsimp only
  rw [if_neg h2, if_pos h31]
  exact semGrid_final _ h w (squeeze_rect2 a h w hr) hh hor

/-- Evaluation of `generate_one_frame_async` on the success path: once the
guard, the three fetches and the RGB shape check pass, the capture
completes, writes the four artifacts, records the normalized grid and mask,
and advances the frame index by one. -/
theorem generate_success (st : ScenarioState) (env : CaptureEnv)
    (rgbA : NDA) (sr : SemRaw) (braw : PyVal)
    (hcr : st._created = true) (hrp : st._render_product ≠ none)
    (hrf : env.rgbFetch = .ok rgbA) (hsf : env.semFetch = .ok sr)
    (hbf : env.bboxFetch = .ok braw)
    (hshape : rgbA.ndim = 3 ∧ (rgbA.shape.getD 2 0 = 3 ∨ rgbA.shape.getD 2 0 = 4)) :
    (SyntheticCaptureScenario.generate_one_frame_async st env).1.ok = true ∧
    (SyntheticCaptureScenario.generate_one_frame_async st env).1.writes =
      ["rgb_" ++ pad4 st._frame_idx ++ ".png",
       "mask_" ++ pad4 st._frame_idx ++ ".png",
       "overlay_" ++ pad4 st._frame_idx ++ ".png",
       "bboxes_" ++ pad4 st._frame_idx ++ ".json"] ∧
    (SyntheticCaptureScenario.generate_one_frame_async st env).1.semGrid =
      some (normalizeSemGrid sr.view.1
        (normalizeRgb3 (toT3 rgbA) RESOLUTION.1 RESOLUTION.2).length
        ((normalizeRgb3 (toT3 rgbA) RESOLUTION.1 RESOLUTION.2).headD []).length
        RESOLUTION.1 RESOLUTION.2) ∧
    (SyntheticCaptureScenario.generate_one_frame_async st env).1.mask =
      some (maskOf sr.view.2 (normalizeSemGrid sr.view.1
        (normalizeRgb3 (toT3 rgbA) RESOLUTION.1 RESOLUTION.2).length
        ((normalizeRgb3 (toT3 rgbA) RESOLUTION.1 RESOLUTION.2).headD []).length
        RESOLUTION.1 RESOLUTION.2)) ∧
    (SyntheticCaptureScenario.generate_one_frame_async st env).2 =
      { st with _frame_idx := st._frame_idx + 1 } := by
  obtain ⟨rf, sf, bf, rows⟩ := env
  simp only at hrf hsf hbf
  subst hrf hsf hbf
  unfold SyntheticCaptureScenario.generate_one_frame_async
  have hguard : ¬(¬st._created = true ∨ st._render_product = none) := by
    simp [hcr, hrp]
  rw [if_neg hguard]
  dsimp only
  rw [if_neg (show ¬¬_ from not_not_intro hshape)]
  exact ⟨rfl, rfl, rfl, rfl, rfl⟩

/-- The normalized RGB buffer of an `(h, w)`-oriented rectangular capture
has outer dimensions `(h, w)` (no transposition fires when
`(h, w) ≠ (1280, 720)`). -/
theorem rgb_dims (rgbA : NDA) (h w ch : ℕ) (hrect : rgbA.Rect [h, w, ch])
    (hch : ch = 3 ∨ ch = 4) (hh : 0 < h) (hw : 0 < w)
    (hor : ¬(h = 1280 ∧ w = 720)) :
    (normalizeRgb3 (toT3 rgbA) RESOLUTION.1 RESOLUTION.2).length = h ∧
    ((normalizeRgb3 (toT3 rgbA) RESOLUTION.1 RESOLUTION.2).headD []).length = w := by
  have hT3 := toT3_rect3 rgbA h w ch hrect
  have hR2 := rect2_of_rect3 _ _ _ _ hT3
  have hcond : ¬((toT3 rgbA).length = RESOLUTION.1 ∧
      ((toT3 rgbA).headD []).length = RESOLUTION.2) := by
    intro hco
    refine hor ⟨?_, ?_⟩
    · rw [← hT3.1]
      exact hco.1
    · rw [← headD_len_of_rect2 (toT3 rgbA) h w hR2 hh]
      exact hco.2
  have hout : Rect3 (normalizeRgb3 (toT3 rgbA) RESOLUTION.1 RESOLUTION.2) h w 3 := by
    rw [normalizeRgb3_eq, if_neg hcond]
    exact slice_rect _ h w ch hT3 (by omega)
  exact ⟨hout.1, headD_len_of_rect2 _ h w (rect2_of_rect3 _ _ _ _ hout) hh⟩

/-- The mask of the all-zero grid is constant: the color assigned to id 0
(black when the table is not a dict or paints no entry for id 0). -/
theorem maskOf_zeros (tbl : PyVal) (h w : ℕ) :
    maskOf tbl (zeros2 h w) = List.replicate h (List.replicate w
      (match tbl with | .pyDict es => maskPixel es 0 | _ => (0, 0, 0))) := by
  cases tbl <;> simp [maskOf, zeros2, List.map_replicate]

/-- **C7, amended.**  For a capture whose fetches succeed and whose RGB
buffer is a rectangular `(h, w, 3|4)` array in image orientation: a raw
semantic grid of shape `(h, w, 1)` is reduced to its 2D `(h, w)` squeeze;
any other non-2D shape and a missing data field degrade to the all-zero
`(h, w)` grid; the frame is still completed and all four artifacts are
persisted; and the resulting mask is all black provided the label table
does not assign a drawable class to id 0 (an entry for id 0 with a known
class does paint the degraded mask — see the counterexample). -/
theorem C7_semantic_degradations (st : ScenarioState) (env : CaptureEnv)
    (rgbA : NDA) (sr : SemRaw) (braw : PyVal) (h w ch : ℕ)
    (hcr : st._created = true) (hrp : st._render_product ≠ none)
    (hrf : env.rgbFetch = .ok rgbA) (hsf : env.semFetch = .ok sr)
    (hbf : env.bboxFetch = .ok braw)
    (hrect : rgbA.Rect [h, w, ch]) (hch : ch = 3 ∨ ch = 4)
    (hh : 0 < h) (hw : 0 < w) (hor : ¬(h = 1280 ∧ w = 720)) :
    (SyntheticCaptureScenario.generate_one_frame_async st env).1.ok = true ∧
    (SyntheticCaptureScenario.generate_one_frame_async st env).1.writes =
      ["rgb_" ++ pad4 st._frame_idx ++ ".png",
       "mask_" ++ pad4 st._frame_idx ++ ".png",
       "overlay_" ++ pad4 st._frame_idx ++ ".png",
       "bboxes_" ++ pad4 st._frame_idx ++ ".json"] ∧
    (∀ (a2 : NDA) (tbl : PyVal), sr = .dict (some a2) tbl → a2.Rect [h, w, 1] →
      (SyntheticCaptureScenario.generate_one_frame_async st env).1.semGrid =
        some (toT2 (normalizeSemGrid.squeezeLast a2)) ∧
      Rect2 (toT2 (normalizeSemGrid.squeezeLast a2)) h w) ∧
    (∀ (a2 : NDA) (tbl : PyVal), sr = .dict (some a2) tbl →
      ¬a2.ndim = 2 → ¬(a2.ndim = 3 ∧ a2.shape.getD 2 0 = 1) →
      (SyntheticCaptureScenario.generate_one_frame_async st env).1.semGrid =
        some (zeros2 h w)) ∧
    (∀ tbl : PyVal, sr = .dict none tbl →
      (SyntheticCaptureScenario.generate_one_frame_async st env).1.semGrid =
        some (zeros2 h w)) ∧
    ((SyntheticCaptureScenario.generate_one_frame_async st env).1.semGrid =
        some (zeros2 h w) →
      (∀ es : PyEntries, sr.view.2 = .pyDict es → maskPixel es 0 = (0, 0, 0)) →
      (SyntheticCaptureScenario.generate_one_frame_async st env).1.mask =
        some (List.replicate h (List.replicate w ((0, 0, 0) : ℕ × ℕ × ℕ)))) := by
  have hns := nda_ndim_shape rgbA h w ch hrect hh hw (by omega)
  have hshape : rgbA.ndim = 3 ∧
      (rgbA.shape.getD 2 0 = 3 ∨ rgbA.shape.getD 2 0 = 4) := by
    refine ⟨hns.1, ?_⟩
    rw [hns.2]
    rcases hch with rfl | rfl
    · left; rfl
    · right; rfl
  obtain ⟨hok, hwr, hgr, hmask, hst⟩ :=
    generate_success st env rgbA sr braw hcr hrp hrf hsf hbf hshape
  obtain ⟨hH, hW⟩ := rgb_dims rgbA h w ch hrect hch hh hw hor
  rw [hH, hW] at hgr hmask
  refine ⟨hok, hwr, ?_, ?_, ?_, ?_⟩
  · intro a2 tbl hsr hr2
    subst hsr
    rw [hgr]
    dsimp only [SemRaw.view, RESOLUTION]
    rw [normalizeSemGrid_squeeze a2 h w hr2 hh hw hor]
    exact ⟨rfl, squeeze_rect2 a2 h w hr2⟩
  · intro a2 tbl hsr h2 h31
    subst hsr
    rw [hgr]
    dsimp only [SemRaw.view, RESOLUTION]
    rw [normalizeSemGrid_badShape a2 h w h2 h31 hh hw hor]
  · intro tbl hsr
    subst hsr
    rw [hgr]
    dsimp only [SemRaw.view, RESOLUTION]
    rw [normalizeSemGrid_noData h w hh hw hor]
  · intro hzero hblack
    have hz : normalizeSemGrid sr.view.1 h w RESOLUTION.1 RESOLUTION.2
        = zeros2 h w := by
      rw [hgr] at hzero
      exact Option.some_injective _ hzero
    rw [hmask, hz, maskOf_zeros]
    cases htbl : sr.view.2 <;> simp only []
    case pyDict es => rw [hblack es htbl]

/-- **C7, counterexample.**  A degraded (non-2D, shape `(1, 1, 2)`) semantic
payload does yield the all-zero grid, but the mask is not black when the
label table assigns a known class to id 0: with `idToLabels =
{"0": {"class": "cone"}}` the whole degraded mask is painted `(255, 0, 0)`,
and the frame still completes.  This refutes the claim's "yielding an
all-black mask". -/
theorem C7_counterexample :
    ((SyntheticCaptureScenario.generate_one_frame_async
        (SyntheticCaptureScenario.create_scene SyntheticCaptureScenario.init)
        ⟨.ok (.node [.node [.node [.leaf 0, .leaf 0, .leaf 0]]]),
         .ok (.dict (some (.node [.node [.node [.leaf 5, .leaf 6]]]))
           (.pyDict (.cons (.inl "0")
             (.pyDict (.cons (.inl "class") (.pyStr "cone") .nil)) .nil))),
         .ok .pyNone, []⟩).1.ok = true) ∧
    ((SyntheticCaptureScenario.generate_one_frame_async
        (SyntheticCaptureScenario.create_scene SyntheticCaptureScenario.init)
        ⟨.ok (.node [.node [.node [.leaf 0, .leaf 0, .leaf 0]]]),
         .ok (.dict (some (.node [.node [.node [.leaf 5, .leaf 6]]]))
           (.pyDict (.cons (.inl "0")
             (.pyDict (.cons (.inl "class") (.pyStr "cone") .nil)) .nil))),
         .ok .pyNone, []⟩).1.semGrid = some [[0]]) ∧
    ((SyntheticCaptureScenario.generate_one_frame_async
        (SyntheticCaptureScenario.create_scene SyntheticCaptureScenario.init)
        ⟨.ok (.node [.node [.node [.leaf 0, .leaf 0, .leaf 0]]]),
         .ok (.dict (some (.node [.node [.node [.leaf 5, .leaf 6]]]))
           (.pyDict (.cons (.inl "0")
             (.pyDict (.cons (.inl "class") (.pyStr "cone") .nil)) .nil))),
         .ok .pyNone, []⟩).1.mask = some [[(255, 0, 0)]]) := by
  refine ⟨by decide, by decide, by decide⟩

/-- **C7, witness** for the amended theorem: a `(1, 1, 3)` capture with a
missing semantic data field completes, persists, and degrades to the
all-zero all-black `1 × 1` mask. -/
theorem C7_witness :
    ((SyntheticCaptureScenario.generate_one_frame_async
        (SyntheticCaptureScenario.create_scene SyntheticCaptureScenario.init)
        ⟨.ok (.node [.node [.node [.leaf 9, .leaf 9, .leaf 9]]]),
         .ok (.dict none .pyNone), .ok .pyNone, []⟩).1.ok = true) ∧
    ((SyntheticCaptureScenario.generate_one_frame_async
        (SyntheticCaptureScenario.create_scene SyntheticCaptureScenario.init)
        ⟨.ok (.node [.node [.node [.leaf 9, .leaf 9, .leaf 9]]]),
         .ok (.dict none .pyNone), .ok .pyNone, []⟩).1.semGrid
      = some (zeros2 1 1)) ∧
    ((SyntheticCaptureScenario.generate_one_frame_async
        (SyntheticCaptureScenario.create_scene SyntheticCaptureScenario.init)
        ⟨.ok (.node [.node [.node [.leaf 9, .leaf 9, .leaf 9]]]),
         .ok (.dict none .pyNone), .ok .pyNone, []⟩).1.mask
      = some (List.replicate 1 (List.replicate 1 ((0, 0, 0) : ℕ × ℕ × ℕ)))) := by
  have h := C7_semantic_degradations
    (SyntheticCaptureScenario.create_scene SyntheticCaptureScenario.init)
    ⟨.ok (.node [.node [.node [.leaf 9, .leaf 9, .leaf 9]]]),
     .ok (.dict none .pyNone), .ok .pyNone, []⟩
    (.node [.node [.node [.leaf 9, .leaf 9, .leaf 9]]])
    (.dict none .pyNone) .pyNone 1 1 3
    rfl (by decide) rfl rfl rfl
    (by simp [NDA.Rect]) (Or.inl rfl) (by decide) (by decide) (by decide)
  refine ⟨h.1, h.2.2.2.2.1 .pyNone rfl, ?_⟩
  exact h.2.2.2.2.2 (h.2.2.2.2.1 .pyNone rfl) (by intro es hes; cases hes)
